import Mathlib

deriving instance DecidableEq for Except

/-!
Shallow embedding of the AWS cost reporter (src/pricing.py) and proofs of
the specification claims about it.

The program reads configuration from environment variables, resolves a
half-open date window, queries the AWS Cost Explorer service, flattens the
response into records, writes JSON (and CSV when pandas is importable),
uploads the files to S3 and prints a summary.  Everything effectful is
modelled as explicit data: the environment is a `Config` value, "today" is
a parameter, the Cost Explorer response is a `Resp` value, and the run of
`main` is a list of observable events plus an optional fatal error.
-/

namespace AWSCost

/-! ## Calendar dates

`datetime.date` values are modelled as year/month/day triples with the
Gregorian month lengths; `+ timedelta(days=1)` and `- timedelta(days=1)`
become `Date.addOneDay` and `Date.subOneDay`. -/

structure Date where
  year : Nat
  month : Nat
  day : Nat
deriving DecidableEq

/-- Gregorian leap-year rule, as implemented by `datetime`. -/
def isLeap (y : Nat) : Bool :=
  (y % 4 == 0 && y % 100 != 0) || y % 400 == 0

/-- Number of days in a month of a given year. -/
def daysInMonth (y m : Nat) : Nat :=
  if m = 2 then (if isLeap y then 29 else 28)
  else if m = 4 ∨ m = 6 ∨ m = 9 ∨ m = 11 then 30
  else 31

/-- A structurally valid `datetime.date`: month in 1..12, day within the month. -/
def Date.Valid (d : Date) : Prop :=
  1 ≤ d.month ∧ d.month ≤ 12 ∧ 1 ≤ d.day ∧ d.day ≤ daysInMonth d.year d.month

instance (d : Date) : Decidable d.Valid := by
  unfold Date.Valid; infer_instance

/-- The date one day later (`d + datetime.timedelta(days=1)`). -/
def Date.addOneDay (d : Date) : Date :=
  if d.day < daysInMonth d.year d.month then ⟨d.year, d.month, d.day + 1⟩
  else if d.month < 12 then ⟨d.year, d.month + 1, 1⟩
  else ⟨d.year + 1, 1, 1⟩

/-- The date one day earlier (`d - datetime.timedelta(days=1)`). -/
def Date.subOneDay (d : Date) : Date :=
  if 1 < d.day then ⟨d.year, d.month, d.day - 1⟩
  else if 1 < d.month then ⟨d.year, d.month - 1, daysInMonth d.year (d.month - 1)⟩
  else ⟨d.year - 1, 12, 31⟩

/-- A numeric key that orders valid dates chronologically (lexicographic on
year, month, day). -/
def Date.key (d : Date) : Nat :=
  d.year * 10000 + d.month * 100 + d.day

/-! ## String helpers

All string processing is done on the underlying character lists so that
every function reduces by ordinary structural recursion. -/

/-- Split a character list on a separator character, like `str.split` on a
single-character separator. -/
def splitOnChar (c : Char) : List Char → List (List Char)
  | [] => [[]]
  | x :: xs =>
    match splitOnChar c xs with
    | [] => if x = c then [[], []] else [[x]]
    | h :: t => if x = c then [] :: h :: t else (x :: h) :: t

/-- True when the list is a nonempty run of ASCII digits. -/
def isDigitsL (l : List Char) : Bool :=
  !l.isEmpty && l.all (fun c => 48 ≤ c.toNat && c.toNat ≤ 57)

/-- Numeric value of a list of ASCII digits (0 for the empty list). -/
def natOfChars (l : List Char) : Nat :=
  l.foldl (fun n c => n * 10 + (c.toNat - 48)) 0

/-- Decimal digits of a natural number, most significant first. -/
def natDigits (n : Nat) : List Char :=
  (Nat.toDigits 10 n)

/-- Render a natural number, left-padded with zeros to width 2 (`%m`, `%d`). -/
def pad2 (n : Nat) : String :=
  if n < 10 then String.mk ('0' :: natDigits n) else String.mk (natDigits n)

/-- Render a natural number, left-padded with zeros to width 4 (`%Y`). -/
def pad4 (n : Nat) : String :=
  if n < 10 then String.mk ('0' :: '0' :: '0' :: natDigits n)
  else if n < 100 then String.mk ('0' :: '0' :: natDigits n)
  else if n < 1000 then String.mk ('0' :: natDigits n)
  else String.mk (natDigits n)

/-- The `strftime("%Y-%m-%d")` rendering of a date. -/
def formatDate (d : Date) : String :=
  pad4 d.year ++ "-" ++ pad2 d.month ++ "-" ++ pad2 d.day

/-- The `datetime.strptime(s, "%Y-%m-%d").date()` parse: three dash-separated
digit fields (year up to 4 digits, month and day up to 2), with the month and
day validated against the calendar; any other input raises, modelled as
`none`. -/
def parseDate (s : String) : Option Date :=
  match splitOnChar '-' s.data with
  | [ys, ms, ds] =>
    if isDigitsL ys = true ∧ ys.length ≤ 4 ∧ isDigitsL ms = true ∧ ms.length ≤ 2 ∧
        isDigitsL ds = true ∧ ds.length ≤ 2 then
      if 1 ≤ natOfChars ms ∧ natOfChars ms ≤ 12 ∧ 1 ≤ natOfChars ds ∧
          natOfChars ds ≤ daysInMonth (natOfChars ys) (natOfChars ms) then
        some ⟨natOfChars ys, natOfChars ms, natOfChars ds⟩
      else none
    else none
  | _ => none

/-! ## Exact decimal amounts

Cost amounts flow through `float(Decimal(metric["Amount"]))`.  They are
modelled as exact rationals (the value of the decimal string; the final
binary rounding of the `float` conversion is below the 4-decimal-place
precision of the reported data and is not modelled).  The library addition,
multiplication and division on `ℚ` are `@[irreducible]`, so to keep the
embedding executable by `decide` the parsed value is built directly as a
reduced fraction; `ratDiv_eq_div` checks the construction against `ℚ`
division. -/

theorem gcd_cast_dvd (n : Int) (d : Nat) : ((n.natAbs.gcd d : Nat) : Int) ∣ n := by
  rw [← Int.natAbs_dvd_natAbs, Int.natAbs_ofNat]
  exact Nat.gcd_dvd_left _ _

theorem ratDiv_den_nz (n : Int) (d : Nat) (hd : ¬ d = 0) :
    d / n.natAbs.gcd d ≠ 0 := by
  have hdp : 0 < d := Nat.pos_of_ne_zero hd
  have hg : 0 < n.natAbs.gcd d := Nat.gcd_pos_of_pos_right _ hdp
  exact Nat.ne_of_gt (Nat.div_pos (Nat.le_of_dvd hdp (Nat.gcd_dvd_right _ _)) hg)

theorem ratDiv_reduced (n : Int) (d : Nat) (hd : ¬ d = 0) :
    (n / (n.natAbs.gcd d : Int)).natAbs.Coprime (d / n.natAbs.gcd d) := by
  have hg : 0 < n.natAbs.gcd d := Nat.gcd_pos_of_pos_right _ (Nat.pos_of_ne_zero hd)
  rw [Int.natAbs_ediv _ _ (gcd_cast_dvd n d), Int.natAbs_ofNat]
  exact Nat.coprime_div_gcd_div_gcd hg

/-- The rational `n / d` as an explicit reduced fraction (0 when `d = 0`). -/
def ratDiv (n : Int) (d : Nat) : ℚ :=
  if hd : d = 0 then 0 else
  { num := n / (n.natAbs.gcd d : Int)
    den := d / n.natAbs.gcd d
    den_nz := ratDiv_den_nz n d hd
    reduced := ratDiv_reduced n d hd }

/-- Sanity check: `ratDiv` agrees with field division on `ℚ`. -/
theorem ratDiv_eq_div (n : Int) (d : Nat) (hd : d ≠ 0) :
    ratDiv n d = (n : ℚ) / (d : ℚ) := by
  unfold ratDiv
  rw [dif_neg hd, Rat.mk'_eq_divInt, Rat.divInt_eq_div]
  set g := n.natAbs.gcd d with hgdef
  have hg : 0 < g := Nat.gcd_pos_of_pos_right _ (Nat.pos_of_ne_zero hd)
  have hgz : g ≠ 0 := Nat.pos_iff_ne_zero.mp hg
  have hgzZ : (g : Int) ≠ 0 := by exact_mod_cast hgz
  have hgzQ : (g : ℚ) ≠ 0 := by exact_mod_cast hgz
  have h1 : (g : Int) ∣ n := hgdef ▸ gcd_cast_dvd n d
  have h2 : g ∣ d := hgdef ▸ Nat.gcd_dvd_right n.natAbs d
  obtain ⟨n', hn⟩ := h1
  obtain ⟨d', hdq⟩ := h2
  rw [hn, hdq, Int.mul_ediv_cancel_left _ hgzZ, Nat.mul_div_cancel_left _ hg]
  push_cast
  rw [mul_div_mul_left _ _ hgzQ]

/-! ## Configuration

Module-level configuration read from the environment in `pricing.py`.
A variable that is unset is `none`; Python truthiness (`if DATE:`) treats
both `None` and the empty string as false.  `PFX` models the
`COST_S3_PREFIX` variable (default `"aws-costs/"`). -/

structure Config where
  PROFILE : Option String := none
  BUCKET : Option String := none
  PFX : Option String := none
  DATE : Option String := none
  START : Option String := none
  END : Option String := none
deriving DecidableEq

/-- Python truthiness of an optional string: false for `None` and `""`. -/
def truthy : Option String → Bool
  | none => false
  | some s => !s.data.isEmpty

/-! ## Date-window resolver (`get_dates`) -/

/-- Error raised by `datetime.strptime` on malformed input. -/
def strptimeError : String := "ValueError: time data does not match format %Y-%m-%d"

/-- Date-level core of `get_dates`: the pair of dates the function formats
with `strftime` plus the label.  Branch order mirrors the source: a truthy
`COST_DATE` wins, otherwise a truthy `COST_START` and `COST_END` pair,
otherwise yesterday relative to `today`. -/
def get_datesD (cfg : Config) (today : Date) : Except String (Date × Date × String) :=
  if truthy cfg.DATE then
    match parseDate (cfg.DATE.getD "") with
    | some d => .ok (d, d.addOneDay, cfg.DATE.getD "")
    | none => .error strptimeError
  else if truthy cfg.START && truthy cfg.END then
    match parseDate (cfg.START.getD "") with
    | none => .error strptimeError
    | some s =>
      match parseDate (cfg.END.getD "") with
      | none => .error strptimeError
      | some e => .ok (s, e.addOneDay, (cfg.START.getD "") ++ "_to_" ++ (cfg.END.getD ""))
  else
    .ok (today.subOneDay, today.subOneDay.addOneDay, formatDate today.subOneDay)

/-- The `get_dates` function: returns `(start, end, label)` where the start
and exclusive end of the window are `strftime("%Y-%m-%d")` strings. -/
def get_dates (cfg : Config) (today : Date) : Except String (String × String × String) :=
  (get_datesD cfg today).map (fun r => (formatDate r.1, formatDate r.2.1, r.2.2))

/-! ## Cost Explorer response and the normalizer

The shape of the `get_cost_and_usage` response that `normalize` consumes.
The code accesses `resp.get("ResultsByTime", [])` and
`period.get("Groups", [])` with defaults, so those two containers are
`Option`s (a missing key is `none`); every other key is accessed by
subscript and is a plain field.  `normalize` itself can raise
(`g["Keys"][0]` on an empty list, `Decimal` on a malformed amount), so it
returns an `Option`. -/

structure Metric where
  Amount : String
  Unit : String
deriving DecidableEq

structure GroupMetrics where
  UnblendedCost : Metric
deriving DecidableEq

structure Group where
  Keys : List String
  Metrics : GroupMetrics
deriving DecidableEq

structure TimePeriodT where
  Start : String
  End : String
deriving DecidableEq

structure PeriodResult where
  TimePeriod : TimePeriodT
  Groups : Option (List Group)
deriving DecidableEq

structure Resp where
  ResultsByTime : Option (List PeriodResult)
deriving DecidableEq

/-- One flat output record `{date, service, amount, unit}`. -/
structure CostRecord where
  date : String
  service : String
  amount : ℚ
  unit : String
deriving DecidableEq

/-- True when every character of the list is an ASCII digit (empty allowed). -/
def allDigits (l : List Char) : Bool :=
  l.all (fun c => 48 ≤ c.toNat && c.toNat ≤ 57)

/-- The value `float(Decimal(s))` as an exact rational: optional sign, then
`digits[.digits]` with at least one digit.  Exponent, `Infinity` and `NaN`
forms of `Decimal` are not produced by the Cost Explorer API and are not
modelled. -/
def parseDecimal (s : String) : Option ℚ :=
  match s.data with
  | [] => none
  | c :: cs =>
    let neg : Bool := c = '-'
    let body : List Char := if c = '-' ∨ c = '+' then cs else c :: cs
    match splitOnChar '.' body with
    | [ip] =>
      if isDigitsL ip = true then
        some (ratDiv (if neg then -(natOfChars ip : Int) else (natOfChars ip : Int)) 1)
      else none
    | [ip, fp] =>
      if allDigits ip = true ∧ allDigits fp = true ∧ (ip.isEmpty = false ∨ fp.isEmpty = false) then
        let mant := natOfChars ip * 10 ^ fp.length + natOfChars fp
        some (ratDiv (if neg then -(mant : Int) else (mant : Int)) (10 ^ fp.length))
      else none
    | _ => none

/-- Body of the inner loop of `normalize`: the record built from one service
group of one time period, `none` when the subscripts or the `Decimal`
conversion would raise. -/
def mkRow (dateStr : String) (g : Group) : Option CostRecord :=
  match g.Keys.head?, parseDecimal g.Metrics.UnblendedCost.Amount with
  | some service, some amount =>
    some { date := dateStr, service := service, amount := amount,
           unit := g.Metrics.UnblendedCost.Unit }
  | _, _ => none

/-- The inner `for g in period.get("Groups", [])` loop of `normalize`. -/
def normalizeGroups (dateStr : String) : List Group → Option (List CostRecord)
  | [] => some []
  | g :: gs =>
    match mkRow dateStr g, normalizeGroups dateStr gs with
    | some r, some rs => some (r :: rs)
    | _, _ => none

/-- The outer `for period in resp.get("ResultsByTime", [])` loop of
`normalize`. -/
def normalizePeriods : List PeriodResult → Option (List CostRecord)
  | [] => some []
  | p :: ps =>
    match normalizeGroups p.TimePeriod.Start (p.Groups.getD []), normalizePeriods ps with
    | some rs, some rest => some (rs ++ rest)
    | _, _ => none

/-- The `normalize` function: flattens the response into records in the
response's own iteration order. -/
def normalize (resp : Resp) : Option (List CostRecord) :=
  normalizePeriods (resp.ResultsByTime.getD [])

/-! ## Reporter -/

/-- The reporter sum `sum(r["amount"] for r in rows)`. -/
def total (rows : List CostRecord) : ℚ :=
  (rows.map CostRecord.amount).sum

/-- The reporter unit `rows[0]["unit"] if rows else "USD"`. -/
def unitOf : List CostRecord → String
  | [] => "USD"
  | r :: _ => r.unit

/-- Rounding of a rational to integer cents, nearest with ties to even,
computed directly on the numerator and denominator so that it reduces by
`decide` (the library multiplication on `ℚ` is irreducible).  This models
the rounding applied by `f"{total:.2f}"`; formatting rounds the binary
float to nearest-even, which agrees with nearest-even on the exact decimal
value except when the binary error crosses a half-cent boundary. -/
def roundCents (q : ℚ) : Int :=
  let a := 100 * q.num
  let b := (q.den : Int)
  let n := Int.fdiv a b
  let r := a - n * b
  if b < 2 * r then n + 1
  else if 2 * r < b then n
  else if n % 2 = 0 then n else n + 1

/-- The string `f"{x:.2f}"`. -/
def formatFixed2 (q : ℚ) : String :=
  let c := roundCents q
  let a := c.natAbs
  (if c < 0 then "-" else "") ++ String.mk (natDigits (a / 100)) ++ "." ++ pad2 (a % 100)

/-- The total-and-unit part of the reporter output:
`f"{total:.2f} {unit}"`. -/
def totalLine (rows : List CostRecord) : String :=
  formatFixed2 (total rows) ++ " " ++ unitOf rows

/-! ## JSON persistence (`save_json` / `json.load`)

`json.dump` writes the record list as a JSON array of four-key objects and
`json.load` reads it back; the values are modelled at the JSON-value level
(a float survives a dump/load cycle exactly, so the number node carries the
exact amount). -/

inductive JVal where
  | jstr : String → JVal
  | jnum : ℚ → JVal
  | jarr : List JVal → JVal
  | jobj : List (String × JVal) → JVal

/-- The JSON object `json.dump` emits for one record (Python dicts preserve
insertion order). -/
def jsonOfRecord (r : CostRecord) : JVal :=
  .jobj [("date", .jstr r.date), ("service", .jstr r.service),
         ("amount", .jnum r.amount), ("unit", .jstr r.unit)]

/-- The JSON array `save_json` writes. -/
def jsonOfRows (rows : List CostRecord) : JVal :=
  .jarr (rows.map jsonOfRecord)

/-- Reading one record object back. -/
def recordOfJson : JVal → Option CostRecord
  | .jobj [("date", .jstr d), ("service", .jstr s), ("amount", .jnum a), ("unit", .jstr u)] =>
    some { date := d, service := s, amount := a, unit := u }
  | _ => none

/-- Reading a list of record objects back. -/
def recordsOfJsonList : List JVal → Option (List CostRecord)
  | [] => some []
  | j :: js =>
    match recordOfJson j, recordsOfJsonList js with
    | some r, some rs => some (r :: rs)
    | _, _ => none

/-- Reading the persisted array back (`json.load`). -/
def rowsOfJson : JVal → Option (List CostRecord)
  | .jarr es => recordsOfJsonList es
  | _ => none

/-! ## File writes, uploads and the run of `main` -/

/-- A file produced locally. -/
inductive FileWrite where
  | json : String → List CostRecord → FileWrite
  | csv : String → List CostRecord → FileWrite
deriving DecidableEq

/-- The `save_json` function, as the write it performs. -/
def save_json (rows : List CostRecord) (path : String) : List FileWrite :=
  [.json path rows]

/-- The `save_csv` function: returns without writing when pandas is not
importable (`pd is None`), otherwise writes the records as CSV. -/
def save_csv (pd : Bool) (rows : List CostRecord) (path : String) : List FileWrite :=
  if pd then [.csv path rows] else []

/-- Python `s.rstrip("/")`: drop every trailing slash. -/
def rstripSlash (s : String) : String :=
  String.mk ((s.data.reverse.dropWhile (fun c => c = '/')).reverse)

/-- Python `os.path.basename`: the part after the last slash. -/
def basename (p : String) : String :=
  String.mk ((p.data.reverse.takeWhile (fun c => c ≠ '/')).reverse)

/-- An observable effect of a run of the program. -/
inductive Event where
  | ceQuery : String → String → Event
  | fileWrite : FileWrite → Event
  | s3Upload : String → String → String → Event
  | printLine : String → Event
deriving DecidableEq

/-- The message of the module-level bucket check. -/
def bucketError : String := "COST_S3_BUCKET env var is required"

/-- The upload events of a run. -/
def uploadsOf (events : List Event) : List (String × String × String) :=
  events.filterMap (fun e =>
    match e with
    | .s3Upload b k l => some (b, k, l)
    | _ => none)

/-- A whole run of `pricing.py`: the module-level bucket check followed by
`main`, returning the events performed in order plus the fatal error, if
any.  `today` stands for `datetime.date.today()`, `pd` for whether pandas
imported, and `resp` for what the Cost Explorer call returns.  Mirrors the
source line by line: resolve dates, query, normalize, write files, build
keys with `PREFIX.rstrip("/")`, upload (CSV only `if pd`), print. -/
def runProgram (cfg : Config) (today : Date) (pd : Bool) (resp : Resp) :
    List Event × Option String :=
  if truthy cfg.BUCKET then
    match get_dates cfg today with
    | .error e => ([], some e)
    | .ok (start, end_, label) =>
      match normalize resp with
      | none => ([Event.ceQuery start end_], some "KeyError")
      | some rows =>
        let json_file := "output/" ++ ("aws_costs_" ++ label ++ ".json")
        let csv_file := "output/" ++ ("aws_costs_" ++ label ++ ".csv")
        let writes := save_json rows json_file ++ save_csv pd rows csv_file
        let pfx := cfg.PFX.getD "aws-costs/"
        let bucket := cfg.BUCKET.getD ""
        let key_json := rstripSlash pfx ++ "/" ++ basename json_file
        let uploads :=
          Event.s3Upload bucket key_json json_file ::
          (if pd then
            [Event.s3Upload bucket (rstripSlash pfx ++ "/" ++ basename csv_file) csv_file]
          else [])
        ([Event.ceQuery start end_] ++ writes.map Event.fileWrite ++ uploads ++
          [Event.printLine ("✅ Uploaded billing for " ++ label ++ " → s3://" ++ bucket ++ "/" ++ pfx),
           Event.printLine ("💰 Total = " ++ totalLine rows)], none)
  else ([], some bucketError)

/-! ## Supporting lemmas about dates -/

theorem daysInMonth_pos (y m : Nat) : 0 < daysInMonth y m := by
  unfold daysInMonth
  split
  · split <;> norm_num
  · split <;> norm_num

theorem daysInMonth_le (y m : Nat) : daysInMonth y m ≤ 31 := by
  unfold daysInMonth
  split
  · split <;> norm_num
  · split <;> norm_num

theorem Date.key_lt_addOneDay (d : Date) (hv : d.Valid) : d.key < d.addOneDay.key := by
  obtain ⟨h1, h2, h3, h4⟩ := hv
  have h31 : daysInMonth d.year d.month ≤ 31 := daysInMonth_le _ _
  unfold Date.addOneDay
  split
  · simp only [Date.key]
    omega
  · split
    · simp only [Date.key]
      omega
    · simp only [Date.key]
      omega

theorem Date.subOneDay_valid (d : Date) (hv : d.Valid) : d.subOneDay.Valid := by
  obtain ⟨h1, h2, h3, h4⟩ := hv
  unfold Date.subOneDay
  split
  · unfold Date.Valid
    dsimp only
    omega
  · split
    · have hp := daysInMonth_pos d.year (d.month - 1)
      unfold Date.Valid
      dsimp only
      omega
    · have h12 : daysInMonth (d.year - 1) 12 = 31 := by norm_num [daysInMonth]
      unfold Date.Valid
      dsimp only
      omega

theorem parseDate_valid (s : String) (d : Date) (h : parseDate s = some d) : d.Valid := by
  unfold parseDate at h
  split at h
  · split at h
    · split at h
      · next hcond =>
        injection h with h
        subst h
        exact hcond
      · simp at h
    · simp at h
  · simp at h

/-! ## Supporting definitions and lemmas for the normalizer claims -/

/-- The total number of service groups in the response (`sum G_i`). -/
def sumGroups (resp : Resp) : Nat :=
  ((resp.ResultsByTime.getD []).map (fun p => (p.Groups.getD []).length)).sum

/-- The (period start date, group) pairs of one time period, in order. -/
def periodPairs (p : PeriodResult) : List (String × Group) :=
  (p.Groups.getD []).map (fun g => (p.TimePeriod.Start, g))

/-- The (period start date, group) pairs of a period list, in response
order. -/
def pairsOf : List PeriodResult → List (String × Group)
  | [] => []
  | p :: ps => periodPairs p ++ pairsOf ps

/-- All (period start date, group) pairs of the response, in the response's
natural iteration order. -/
def respPairs (resp : Resp) : List (String × Group) :=
  pairsOf (resp.ResultsByTime.getD [])

/-- The relation between a (period date, group) pair of the response and the
record the normalizer emits for it: the record carries the period's start
date, the group's first key as service, the decimal amount converted to a
number, and the metric's currency unit. -/
def RowMatch : String × Group → CostRecord → Prop := fun pg r =>
  r.date = pg.1 ∧ pg.2.Keys.head? = some r.service ∧
  parseDecimal pg.2.Metrics.UnblendedCost.Amount = some r.amount ∧
  r.unit = pg.2.Metrics.UnblendedCost.Unit

theorem mkRow_rowMatch (ds : String) (g : Group) (r : CostRecord)
    (h : mkRow ds g = some r) : RowMatch (ds, g) r := by
  unfold mkRow at h
  cases hk : g.Keys.head? with
  | none =>
    cases hp : parseDecimal g.Metrics.UnblendedCost.Amount <;> rw [hk, hp] at h <;> simp at h
  | some service =>
    cases hp : parseDecimal g.Metrics.UnblendedCost.Amount with
    | none => rw [hk, hp] at h; simp at h
    | some amount =>
      rw [hk, hp] at h
      simp only [Option.some.injEq] at h
      subst h
      exact ⟨rfl, by rw [hk], by rw [hp], rfl⟩

theorem normalizeGroups_forall₂ (ds : String) :
    ∀ gs out, normalizeGroups ds gs = some out →
      List.Forall₂ RowMatch (gs.map (fun g => (ds, g))) out := by
  intro gs
  induction gs with
  | nil =>
    intro out h
    simp only [normalizeGroups, Option.some.injEq] at h
    subst h
    exact List.Forall₂.nil
  | cons g gs ih =>
    intro out h
    unfold normalizeGroups at h
    cases hr : mkRow ds g with
    | none =>
      cases hrest : normalizeGroups ds gs <;> rw [hr, hrest] at h <;> simp at h
    | some r =>
      cases hrest : normalizeGroups ds gs with
      | none => rw [hr, hrest] at h; simp at h
      | some rs =>
        rw [hr, hrest] at h
        simp only [Option.some.injEq] at h
        subst h
        exact List.Forall₂.cons (mkRow_rowMatch ds g r hr) (ih rs hrest)

theorem normalizePeriods_forall₂ :
    ∀ ps out, normalizePeriods ps = some out →
      List.Forall₂ RowMatch (pairsOf ps) out := by
  intro ps
  induction ps with
  | nil =>
    intro out h
    simp only [normalizePeriods, Option.some.injEq] at h
    subst h
    exact List.Forall₂.nil
  | cons p ps ih =>
    intro out h
    unfold normalizePeriods at h
    cases hg : normalizeGroups p.TimePeriod.Start (p.Groups.getD []) with
    | none =>
      cases hrest : normalizePeriods ps <;> rw [hg, hrest] at h <;> simp at h
    | some rs =>
      cases hrest : normalizePeriods ps with
      | none => rw [hg, hrest] at h; simp at h
      | some rest =>
        rw [hg, hrest] at h
        simp only [Option.some.injEq] at h
        subst h
        exact List.rel_append (normalizeGroups_forall₂ _ _ _ hg) (ih rest hrest)

theorem pairsOf_length (ps : List PeriodResult) :
    (pairsOf ps).length = (ps.map (fun p => (p.Groups.getD []).length)).sum := by
  induction ps with
  | nil => rfl
  | cons p ps ih => simp [pairsOf, periodPairs, ih]

/-! ## Claim C1: the three resolutions of the date window -/

/-- C1: the date-window resolver returns exactly one of three resolutions in
priority order: a configured single date `D` gives the window
`[D, D + 1 day)` with label `D`; otherwise a configured start `S` and end
`E` give `[S, E + 1 day)` with label `S_to_E`; otherwise the window is
`[yesterday, today)` with label equal to yesterday's date string. -/
theorem get_dates_priority_cases (cfg : Config) (today : Date) :
    (∀ D d, cfg.DATE = some D → truthy cfg.DATE = true → parseDate D = some d →
      get_dates cfg today = .ok (formatDate d, formatDate d.addOneDay, D))
    ∧ (∀ S E ds de, truthy cfg.DATE = false →
        cfg.START = some S → cfg.END = some E →
        truthy cfg.START = true → truthy cfg.END = true →
        parseDate S = some ds → parseDate E = some de →
        get_dates cfg today = .ok (formatDate ds, formatDate de.addOneDay, S ++ "_to_" ++ E))
    ∧ (truthy cfg.DATE = false → (truthy cfg.START && truthy cfg.END) = false →
        get_dates cfg today = .ok (formatDate today.subOneDay,
          formatDate today.subOneDay.addOneDay, formatDate today.subOneDay)) := by
  refine ⟨?_, ?_, ?_⟩
  · intro D d hD hT hp
    rw [hD] at hT
    simp [get_dates, get_datesD, hD, hT, hp, Except.map]
  · intro S E ds de hD hS hE hTS hTE hps hpe
    rw [hS] at hTS
    rw [hE] at hTE
    simp [get_dates, get_datesD, hD, hS, hE, hTS, hTE, hps, hpe, Except.map]
  · intro hD hSE
    simp [get_dates, get_datesD, hD, hSE, Except.map]

/-- Witness for C1 at the three concrete modes. -/
theorem get_dates_priority_cases_witness :
    get_dates { BUCKET := some "b", DATE := some "2024-03-05" } ⟨2024, 3, 10⟩ =
      .ok (formatDate ⟨2024, 3, 5⟩, formatDate (Date.addOneDay ⟨2024, 3, 5⟩), "2024-03-05")
    ∧ get_dates { BUCKET := some "b", START := some "2024-01-01", END := some "2024-01-02" }
        ⟨2024, 3, 10⟩ =
      .ok (formatDate ⟨2024, 1, 1⟩, formatDate (Date.addOneDay ⟨2024, 1, 2⟩),
        "2024-01-01" ++ "_to_" ++ "2024-01-02")
    ∧ get_dates { BUCKET := some "b" } ⟨2024, 3, 10⟩ =
      .ok (formatDate (Date.subOneDay ⟨2024, 3, 10⟩),
        formatDate (Date.addOneDay (Date.subOneDay ⟨2024, 3, 10⟩)),
        formatDate (Date.subOneDay ⟨2024, 3, 10⟩)) :=
  ⟨(get_dates_priority_cases _ _).1 "2024-03-05" ⟨2024, 3, 5⟩ rfl (by decide) (by decide),
   (get_dates_priority_cases _ _).2.1 "2024-01-01" "2024-01-02" ⟨2024, 1, 1⟩ ⟨2024, 1, 2⟩
     (by decide) rfl rfl (by decide) (by decide) (by decide) (by decide),
   (get_dates_priority_cases _ _).2.2 (by decide) (by decide)⟩

/-! ## Claim C2: shape and order of the normalized records -/

/-- C2: when `normalize` succeeds, it produces exactly `sum G_i` flat
records, and the k-th record corresponds to the k-th (period, group) pair of
the response in its natural iteration order, carrying the period's start
date, the group's service key, the converted amount and the currency unit
(`List.Forall₂` relates the lists position by position, so no reordering
happens). -/
theorem normalize_flat_records (resp : Resp) (out : List CostRecord)
    (h : normalize resp = some out) :
    out.length = sumGroups resp ∧ List.Forall₂ RowMatch (respPairs resp) out := by
  have h2 := normalizePeriods_forall₂ _ _ h
  refine ⟨?_, h2⟩
  rw [← h2.length_eq]
  exact pairsOf_length _

/-- Witness for C2: a response with two periods holding two and one groups
normalizes to three records matching the pairs in order. -/
theorem normalize_flat_records_witness :
    ([⟨"2024-01-01", "AmazonEC2", ratDiv 1234 100, "USD"⟩,
      ⟨"2024-01-01", "AmazonS3", ratDiv 1 2, "USD"⟩,
      ⟨"2024-01-02", "AmazonEC2", ratDiv 2 1, "USD"⟩] : List CostRecord).length =
      sumGroups ⟨some [
        ⟨⟨"2024-01-01", "2024-01-02"⟩,
          some [⟨["AmazonEC2"], ⟨⟨"12.3400", "USD"⟩⟩⟩, ⟨["AmazonS3"], ⟨⟨"0.5000", "USD"⟩⟩⟩]⟩,
        ⟨⟨"2024-01-02", "2024-01-03"⟩, some [⟨["AmazonEC2"], ⟨⟨"2.0000", "USD"⟩⟩⟩]⟩]⟩
    ∧ List.Forall₂ RowMatch
        (respPairs ⟨some [
          ⟨⟨"2024-01-01", "2024-01-02"⟩,
            some [⟨["AmazonEC2"], ⟨⟨"12.3400", "USD"⟩⟩⟩, ⟨["AmazonS3"], ⟨⟨"0.5000", "USD"⟩⟩⟩]⟩,
          ⟨⟨"2024-01-02", "2024-01-03"⟩, some [⟨["AmazonEC2"], ⟨⟨"2.0000", "USD"⟩⟩⟩]⟩]⟩)
        [⟨"2024-01-01", "AmazonEC2", ratDiv 1234 100, "USD"⟩,
         ⟨"2024-01-01", "AmazonS3", ratDiv 1 2, "USD"⟩,
         ⟨"2024-01-02", "AmazonEC2", ratDiv 2 1, "USD"⟩] :=
  normalize_flat_records _ _ (by decide)

/-! ## Claim C3: the reporter total and unit -/

/-- C3: the reporter sums the amounts (0 on the empty sequence) and reports
the first record's unit, defaulting to "USD"; on the example response with
groups ("AmazonEC2", "12.3400", "USD") and ("AmazonS3", "0.5000", "USD")
it reports "12.84 USD", and on the empty response "0.00 USD". -/
theorem reporter_total_example :
    normalize ⟨some [⟨⟨"2024-01-01", "2024-01-02"⟩,
        some [⟨["AmazonEC2"], ⟨⟨"12.3400", "USD"⟩⟩⟩, ⟨["AmazonS3"], ⟨⟨"0.5000", "USD"⟩⟩⟩]⟩]⟩
      = some [⟨"2024-01-01", "AmazonEC2", ratDiv 1234 100, "USD"⟩,
              ⟨"2024-01-01", "AmazonS3", ratDiv 1 2, "USD"⟩]
    ∧ totalLine [⟨"2024-01-01", "AmazonEC2", ratDiv 1234 100, "USD"⟩,
                 ⟨"2024-01-01", "AmazonS3", ratDiv 1 2, "USD"⟩] = "12.84 USD"
    ∧ normalize ⟨some []⟩ = some []
    ∧ totalLine [] = "0.00 USD"
    ∧ total [] = 0
    ∧ unitOf [] = "USD"
    ∧ (∀ r rs, unitOf (r :: rs) = r.unit) := by
  have hsum : total [(⟨"2024-01-01", "AmazonEC2", ratDiv 1234 100, "USD"⟩ : CostRecord),
      ⟨"2024-01-01", "AmazonS3", ratDiv 1 2, "USD"⟩] = ratDiv 1284 100 := by
    show ratDiv 1234 100 + (ratDiv 1 2 + 0) = ratDiv 1284 100
    rw [ratDiv_eq_div _ _ (by norm_num), ratDiv_eq_div _ _ (by norm_num),
      ratDiv_eq_div _ _ (by norm_num)]
    norm_num
  refine ⟨by decide, ?_, by decide, by decide, by decide, by decide, fun r rs => rfl⟩
  show formatFixed2 (total _) ++ " " ++ unitOf _ = "12.84 USD"
  rw [hsum]
  decide

/-! ## Claim C7: JSON round trip -/

theorem recordsOfJsonList_map (rows : List CostRecord) :
    recordsOfJsonList (rows.map jsonOfRecord) = some rows := by
  induction rows with
  | nil => rfl
  | cons r rs ih =>
    have hr : recordOfJson (jsonOfRecord r) = some r := rfl
    simp only [List.map_cons, recordsOfJsonList, hr, ih]

/-- C7: writing any record sequence to JSON and reading it back yields an
equal sequence, field for field and in the same order. -/
theorem save_json_roundtrip (rows : List CostRecord) :
    rowsOfJson (jsonOfRows rows) = some rows :=
  recordsOfJsonList_map rows

/-! ## Claim C9: a lone range endpoint is silently ignored -/

/-- C9: when `COST_DATE` is not set and exactly one of `COST_START` and
`COST_END` is set, the resolver raises nothing and falls through to the
yesterday default, ignoring the lone endpoint. -/
theorem lone_endpoint_defaults (cfg : Config) (today : Date)
    (hD : truthy cfg.DATE = false)
    (hxor : truthy cfg.START ≠ truthy cfg.END) :
    get_dates cfg today = .ok (formatDate today.subOneDay,
      formatDate today.subOneDay.addOneDay, formatDate today.subOneDay) := by
  have hSE : (truthy cfg.START && truthy cfg.END) = false := by
    cases hs : truthy cfg.START <;> cases he : truthy cfg.END <;> simp_all
  simp [get_dates, get_datesD, hD, hSE, Except.map]

/-- Witness for C9: only `COST_START` set. -/
theorem lone_endpoint_defaults_witness :
    get_dates { BUCKET := some "b", START := some "2024-01-01" } ⟨2024, 3, 10⟩ =
      .ok (formatDate (Date.subOneDay ⟨2024, 3, 10⟩),
        formatDate (Date.addOneDay (Date.subOneDay ⟨2024, 3, 10⟩)),
        formatDate (Date.subOneDay ⟨2024, 3, 10⟩)) :=
  lone_endpoint_defaults _ _ (by decide) (by decide)

/-! ## Claim C10: the normalizer is total on missing container keys -/

/-- C10: a missing "ResultsByTime" key (the empty dictionary) normalizes to
the empty record sequence, and a period with no "Groups" key contributes no
records. -/
theorem normalize_total_on_missing_keys :
    normalize ⟨none⟩ = some []
    ∧ (∀ p ps, p.Groups = none → normalizePeriods (p :: ps) = normalizePeriods ps) := by
  refine ⟨rfl, ?_⟩
  intro p ps h
  cases hrest : normalizePeriods ps <;>
    simp [normalizePeriods, h, normalizeGroups, hrest]

/-- Witness for C10: a period with a missing "Groups" key contributes
nothing. -/
theorem normalize_total_on_missing_keys_witness :
    normalizePeriods [({ TimePeriod := ⟨"2024-01-01", "2024-01-02"⟩, Groups := none } :
      PeriodResult)] = normalizePeriods [] :=
  normalize_total_on_missing_keys.2 _ [] rfl

/-! ## Claim C4: missing bucket fails before any network call -/

/-- C4: when `COST_S3_BUCKET` is unset or empty, the run aborts with the
module-level error and the event list is empty — in particular no billing
query and no upload was attempted. -/
theorem missing_bucket_fatal (cfg : Config) (today : Date) (pd : Bool) (resp : Resp)
    (h : truthy cfg.BUCKET = false) :
    runProgram cfg today pd resp = ([], some bucketError) := by
  simp [runProgram, h]

/-- Witness for C4 with the bucket variable unset and with it empty. -/
theorem missing_bucket_fatal_witness :
    runProgram { BUCKET := none } ⟨2024, 3, 10⟩ false ⟨none⟩ = ([], some bucketError)
    ∧ runProgram { BUCKET := some "" } ⟨2024, 3, 10⟩ true ⟨none⟩ = ([], some bucketError) :=
  ⟨missing_bucket_fatal _ _ _ _ (by decide), missing_bucket_fatal _ _ _ _ (by decide)⟩

/-! ## Claim C5: the window invariant start < end -/

/-- C5 counterexample: with `COST_START` after `COST_END` the resolver
succeeds but returns a window whose start equals its exclusive end, so the
claimed invariant start < end does not hold in every resolution. -/
theorem window_invariant_counterexample :
    get_datesD { BUCKET := some "b", START := some "2024-01-02", END := some "2024-01-01" }
        ⟨2024, 3, 10⟩ =
      .ok (⟨2024, 1, 2⟩, ⟨2024, 1, 2⟩, "2024-01-02_to_2024-01-01")
    ∧ get_dates { BUCKET := some "b", START := some "2024-01-02", END := some "2024-01-01" }
        ⟨2024, 3, 10⟩ =
      .ok ("2024-01-02", "2024-01-02", "2024-01-02_to_2024-01-01")
    ∧ ¬ Date.key ⟨2024, 1, 2⟩ < Date.key ⟨2024, 1, 2⟩ :=
  ⟨by decide, by decide, by decide⟩

/-- C5 as amended: every successfully resolved window satisfies
start < end in the single-date and yesterday-default modes, and in the
start/end range mode provided the configured start date is not after the
configured end date (when start > end the resolver still succeeds and
returns a window with start ≥ end). -/
theorem window_invariant (cfg : Config) (today : Date) (s e : Date) (l : String)
    (htoday : today.Valid)
    (hrange : truthy cfg.DATE = false → (truthy cfg.START && truthy cfg.END) = true →
      ∀ ds de, parseDate (cfg.START.getD "") = some ds →
        parseDate (cfg.END.getD "") = some de → ds.key ≤ de.key)
    (h : get_datesD cfg today = .ok (s, e, l)) :
    s.key < e.key := by
  unfold get_datesD at h
  by_cases hD : truthy cfg.DATE = true
  · rw [if_pos hD] at h
    cases hp : parseDate (cfg.DATE.getD "") with
    | none => rw [hp] at h; simp at h
    | some d =>
      rw [hp] at h
      simp only [Except.ok.injEq, Prod.mk.injEq] at h
      obtain ⟨rfl, rfl, -⟩ := h
      exact Date.key_lt_addOneDay _ (parseDate_valid _ _ hp)
  · rw [if_neg hD] at h
    by_cases hSE : (truthy cfg.START && truthy cfg.END) = true
    · rw [if_pos hSE] at h
      cases hps : parseDate (cfg.START.getD "") with
      | none => rw [hps] at h; simp at h
      | some ds =>
        rw [hps] at h
        cases hpe : parseDate (cfg.END.getD "") with
        | none => rw [hpe] at h; simp at h
        | some de =>
          rw [hpe] at h
          simp only [Except.ok.injEq, Prod.mk.injEq] at h
          obtain ⟨rfl, rfl, -⟩ := h
          have hle := hrange (by simpa using hD) hSE ds de hps hpe
          exact lt_of_le_of_lt hle (Date.key_lt_addOneDay _ (parseDate_valid _ _ hpe))
    · rw [if_neg hSE] at h
      simp only [Except.ok.injEq, Prod.mk.injEq] at h
      obtain ⟨rfl, rfl, -⟩ := h
      exact Date.key_lt_addOneDay _ (Date.subOneDay_valid _ htoday)

/-- A configuration with a well-ordered explicit range, for the C5 witness. -/
def cfgRangeOK : Config :=
  { BUCKET := some "b", START := some "2024-01-01", END := some "2024-01-02" }

/-- Witness for the amended C5 in the range mode with start ≤ end. -/
theorem window_invariant_witness :
    Date.key ⟨2024, 1, 1⟩ < Date.key ⟨2024, 1, 3⟩ :=
  window_invariant cfgRangeOK
    ⟨2024, 3, 10⟩ ⟨2024, 1, 1⟩ ⟨2024, 1, 3⟩ ("2024-01-01" ++ "_to_" ++ "2024-01-02")
    (by decide)
    (by
      intro h1 h2 ds de hds hde
      rw [show parseDate (cfgRangeOK.START.getD "") = some (⟨2024, 1, 1⟩ : Date)
        from by decide] at hds
      rw [show parseDate (cfgRangeOK.END.getD "") = some (⟨2024, 1, 2⟩ : Date)
        from by decide] at hde
      injection hds with hds
      injection hde with hde
      subst hds
      subst hde
      decide)
    (by decide)

/-! ## The event list of a successful run -/

theorem runProgram_ok_events (cfg : Config) (today : Date) (pd : Bool) (resp : Resp)
    (events : List Event) (h : runProgram cfg today pd resp = (events, none)) :
    ∃ start end_ label rows,
      get_dates cfg today = .ok (start, end_, label) ∧
      normalize resp = some rows ∧
      events =
        [Event.ceQuery start end_] ++
        (save_json rows ("output/" ++ ("aws_costs_" ++ label ++ ".json")) ++
         save_csv pd rows ("output/" ++ ("aws_costs_" ++ label ++ ".csv"))).map Event.fileWrite ++
        (Event.s3Upload (cfg.BUCKET.getD "")
            (rstripSlash (cfg.PFX.getD "aws-costs/") ++ "/" ++
              basename ("output/" ++ ("aws_costs_" ++ label ++ ".json")))
            ("output/" ++ ("aws_costs_" ++ label ++ ".json")) ::
          (if pd then
            [Event.s3Upload (cfg.BUCKET.getD "")
              (rstripSlash (cfg.PFX.getD "aws-costs/") ++ "/" ++
                basename ("output/" ++ ("aws_costs_" ++ label ++ ".csv")))
              ("output/" ++ ("aws_costs_" ++ label ++ ".csv"))]
          else [])) ++
        [Event.printLine ("✅ Uploaded billing for " ++ label ++ " → s3://" ++
            cfg.BUCKET.getD "" ++ "/" ++ cfg.PFX.getD "aws-costs/"),
         Event.printLine ("💰 Total = " ++ totalLine rows)] := by
  unfold runProgram at h
  by_cases hB : truthy cfg.BUCKET = true
  · rw [if_pos hB] at h
    cases hgd : get_dates cfg today with
    | error e => rw [hgd] at h; simp at h
    | ok r =>
      obtain ⟨start, end_, label⟩ := r
      rw [hgd] at h
      cases hn : normalize resp with
      | none => rw [hn] at h; simp at h
      | some rows =>
        rw [hn] at h
        simp only [Prod.mk.injEq] at h
        obtain ⟨hev, -⟩ := h
        exact ⟨start, end_, label, rows, rfl, rfl, hev.symm⟩
  · rw [if_neg hB] at h
    simp at h

/-! ## Claim C6: the object key of each upload -/

/-- A configuration with the default prefix value (trailing slash), for C6. -/
def cfgPfx : Config :=
  { BUCKET := some "b", PFX := some "aws-costs/", DATE := some "2024-01-01" }

/-- C6 counterexample: with the (default) configured value "aws-costs/" of
the key prefix, the produced file is uploaded under the key
"aws-costs/aws_costs_2024-01-01.json", which is not
`prefix + "/" + filename` = "aws-costs//aws_costs_2024-01-01.json" — the
code first strips trailing slashes from the configured value. -/
theorem upload_key_counterexample :
    uploadsOf (runProgram cfgPfx ⟨2024, 3, 10⟩ false ⟨some []⟩).1 =
      [("b", "aws-costs/aws_costs_2024-01-01.json", "output/aws_costs_2024-01-01.json")]
    ∧ basename "output/aws_costs_2024-01-01.json" = "aws_costs_2024-01-01.json"
    ∧ "aws-costs/aws_costs_2024-01-01.json" ≠
        "aws-costs/" ++ "/" ++ "aws_costs_2024-01-01.json" :=
  ⟨by decide, by decide, by decide⟩

/-- C6 as amended: every upload of a run goes to the configured bucket under
the key formed from the configured prefix with its trailing slashes
removed, then "/", then the local file's base name (so the claimed
`prefix + "/" + filename` shape holds exactly when the configured prefix
has no trailing slash). -/
theorem upload_key_shape (cfg : Config) (today : Date) (pd : Bool) (resp : Resp)
    (events : List Event) (h : runProgram cfg today pd resp = (events, none)) :
    ∀ b k l, Event.s3Upload b k l ∈ events →
      b = cfg.BUCKET.getD "" ∧
      k = rstripSlash (cfg.PFX.getD "aws-costs/") ++ "/" ++ basename l := by
  obtain ⟨start, end_, label, rows, hgd, hn, hev⟩ :=
    runProgram_ok_events cfg today pd resp events h
  subst hev
  intro b k l hm
  cases pd with
  | false =>
    simp only [save_json, save_csv, Bool.false_eq_true, if_false, List.append_nil,
      List.map_cons, List.map_nil, List.cons_append, List.nil_append, List.mem_cons,
      List.mem_singleton, reduceCtorEq, false_or, or_false, Event.s3Upload.injEq,
      List.not_mem_nil] at hm
    obtain ⟨rfl, rfl, rfl⟩ := hm
    exact ⟨rfl, rfl⟩
  | true =>
    simp only [save_json, save_csv, if_true, List.append_nil, List.map_cons,
      List.map_nil, List.cons_append, List.nil_append, List.mem_cons,
      List.mem_singleton, reduceCtorEq, false_or, or_false, Event.s3Upload.injEq,
      List.not_mem_nil] at hm
    rcases hm with ⟨rfl, rfl, rfl⟩ | ⟨rfl, rfl, rfl⟩
    · exact ⟨rfl, rfl⟩
    · exact ⟨rfl, rfl⟩

/-- Witness for the amended C6: the upload key of the produced JSON file. -/
theorem upload_key_shape_witness :
    "b" = cfgPfx.BUCKET.getD ""
    ∧ "aws-costs/aws_costs_2024-01-01.json" =
      rstripSlash (cfgPfx.PFX.getD "aws-costs/") ++ "/" ++
        basename "output/aws_costs_2024-01-01.json" :=
  upload_key_shape cfgPfx
    ⟨2024, 3, 10⟩ false ⟨some []⟩
    (runProgram cfgPfx ⟨2024, 3, 10⟩ false ⟨some []⟩).1
    (by decide)
    "b" "aws-costs/aws_costs_2024-01-01.json" "output/aws_costs_2024-01-01.json"
    (by decide)

/-! ## Claim C8: CSV output requires the optional pandas dependency -/

/-- C8: `save_csv` writes nothing and raises nothing when pandas is
unavailable and writes the records as CSV when it is; accordingly a
successful run with pandas unavailable writes the JSON file and no CSV
file, and a successful run with pandas available additionally writes the
same records as CSV. -/
theorem csv_needs_pandas :
    (∀ rows path, save_csv false rows path = [])
    ∧ (∀ rows path, save_csv true rows path = [FileWrite.csv path rows])
    ∧ (∀ cfg today resp events rows,
        runProgram cfg today false resp = (events, none) →
        normalize resp = some rows →
        (∃ jf, Event.fileWrite (FileWrite.json jf rows) ∈ events)
        ∧ (∀ p r, Event.fileWrite (FileWrite.csv p r) ∉ events))
    ∧ (∀ cfg today resp events rows,
        runProgram cfg today true resp = (events, none) →
        normalize resp = some rows →
        (∃ jf, Event.fileWrite (FileWrite.json jf rows) ∈ events)
        ∧ (∃ cf, Event.fileWrite (FileWrite.csv cf rows) ∈ events)) := by
  refine ⟨fun rows path => rfl, fun rows path => rfl, ?_, ?_⟩
  · intro cfg today resp events rows h hrows
    obtain ⟨start, end_, label, rows', hgd, hn, hev⟩ :=
      runProgram_ok_events cfg today false resp events h
    rw [hrows] at hn
    injection hn with hn
    subst hn
    subst hev
    constructor
    · exact ⟨"output/" ++ ("aws_costs_" ++ label ++ ".json"), by simp [save_json, save_csv]⟩
    · intro p r
      simp [save_json, save_csv]
  · intro cfg today resp events rows h hrows
    obtain ⟨start, end_, label, rows', hgd, hn, hev⟩ :=
      runProgram_ok_events cfg today true resp events h
    rw [hrows] at hn
    injection hn with hn
    subst hn
    subst hev
    constructor
    · exact ⟨"output/" ++ ("aws_costs_" ++ label ++ ".json"), by simp [save_json, save_csv]⟩
    · exact ⟨"output/" ++ ("aws_costs_" ++ label ++ ".csv"), by simp [save_json, save_csv]⟩

/-- Witness for C8: a concrete successful run without pandas writes the
JSON file and no CSV file. -/
theorem csv_needs_pandas_witness :
    (∃ jf, Event.fileWrite (FileWrite.json jf []) ∈
      (runProgram { BUCKET := some "b", DATE := some "2024-01-01" }
        ⟨2024, 3, 10⟩ false ⟨some []⟩).1)
    ∧ (∀ p r, Event.fileWrite (FileWrite.csv p r) ∉
      (runProgram { BUCKET := some "b", DATE := some "2024-01-01" }
        ⟨2024, 3, 10⟩ false ⟨some []⟩).1) :=
  csv_needs_pandas.2.2.1 { BUCKET := some "b", DATE := some "2024-01-01" }
    ⟨2024, 3, 10⟩ ⟨some []⟩ _ [] (by decide) (by decide)

end AWSCost
